import Mathlib

/-!
Verification of the Aurora repository's computational core.

Shallow embedding conventions:
- Python `float` values are modelled as exact rationals `ℚ`; `None` becomes
  `Option.none`, so `Optional[float]` is `Option ℚ`.
- A Python function whose body may raise an exception that its caller catches
  (returning `None` for the whole call) is modelled in the `Option` monad,
  with `none` standing for the raised-and-caught exception.
- Dictionaries with a fixed key set become structures; a key whose value may
  be `None` becomes an `Option` field.
-/

/-! ## calculations.py -/

/-- Embeds `calculate_price_change` (src/calculations.py, lines 4-11):
returns `None` when either input is `None` or the previous price is zero,
otherwise the percentage change. -/
def calculate_price_change (current_price previous_price : Option ℚ) : Option ℚ :=
  match current_price, previous_price with
  | some c, some p => if p = 0 then none else some ((c - p) / p * 100)
  | _, _ => none

/-- The earnings dictionary assembled in `fetch_and_process_data`
(src/main.py, lines 47-50): both keys always present, values optional. -/
structure EarningsEntry where
  eps_actual : Option ℚ
  eps_estimated : Option ℚ
deriving Repr, DecidableEq

/-- Embeds `calculate_earnings_surprise` (src/calculations.py, lines 14-27).
The Python guard `if not earnings_entry` is `none` here: the call sites build
the entry either as `None` or as a two-key dictionary, which is always truthy. -/
def calculate_earnings_surprise (earnings_entry : Option EarningsEntry) : Option ℚ :=
  match earnings_entry with
  | none => none
  | some e =>
    match e.eps_actual, e.eps_estimated with
    | some eps_actual, some eps_estimated =>
      if eps_estimated = 0 then some 0
      else some ((eps_actual - eps_estimated) / |eps_estimated| * 100)
    | _, _ => none

/-- Embeds `calculate_abnormal_return` (src/calculations.py, lines 30-51):
CAPM abnormal return, `None` if any input is `None`. -/
def calculate_abnormal_return
    (actual_return market_return beta risk_free_rate : Option ℚ) : Option ℚ :=
  match actual_return, market_return, beta, risk_free_rate with
  | some ar, some mr, some b, some rf =>
    some (ar - (rf + b * (mr - rf)))
  | _, _, _, _ => none

/-- Embeds `determine_overreaction` (src/calculations.py, lines 54-83).
The Python default `overreaction_threshold=2.0` is passed explicitly here. -/
def determine_overreaction
    (abnormal_return eps_surprise : Option ℚ) (overreaction_threshold : ℚ) : String :=
  match abnormal_return, eps_surprise with
  | some ab, some eps =>
    if |eps| = 0 then
      if |ab| > 1 then "Yes" else "No"
    else
      if |ab| > |eps| * overreaction_threshold ∧ ab * eps ≥ 0 then "Yes" else "No"
  | _, _ => ""

/-- Reference definition of the EPS surprise written from the spec's words
(spec §4.1), used only to compare against `calculate_earnings_surprise`:
unknown when an input is absent, `0.0` when the estimate is zero, otherwise
`(eps_actual - eps_estimated) / |eps_estimated| * 100` with no rounding. -/
def spec_earnings_surprise (eps_actual eps_estimated : Option ℚ) : Option ℚ :=
  match eps_actual, eps_estimated with
  | some a, some est =>
    if est = 0 then some 0 else some ((a - est) / |est| * 100)
  | _, _ => none

/-! ## api_requests.py: get_price_changes -/

/-- The `changes` dictionary built by `get_price_changes`
(src/api_requests.py, lines 177-199): each key present only when the
corresponding guard passed. -/
structure PriceChanges where
  change_1w : Option ℚ
  change_1m : Option ℚ
  change_3m : Option ℚ
  change_1y : Option ℚ
deriving Repr, DecidableEq

/-- Embeds `get_price_changes` (src/api_requests.py, lines 152-206), starting
from the parsed `historical` list of closes (most-recent-first); the network
and JSON layers before it are out of scope. An empty list is the
"Invalid or empty data" early return. Each window reads
`historical[offset]` after the guard `len(historical) >= offset`; an
out-of-range index (or a zero past close) raises in Python and is caught by
the blanket handler, which returns `None` for the whole call — modelled by
the outer `Option`. The inner `Option` is presence of the key in `changes`. -/
def get_price_changes (historical : List ℚ) : Option PriceChanges :=
  match historical with
  | [] => none
  | current_price :: _ =>
    let window : Nat → Option (Option ℚ) := fun offset =>
      if offset ≤ historical.length then
        match historical.get? offset with
        | none => none
        | some past =>
          if past = 0 then none
          else some (some ((current_price - past) / past * 100))
      else some none
    (window 5).bind fun c1w =>
    (window 22).bind fun c1m =>
    (window 66).bind fun c3m =>
    (window 252).bind fun c1y =>
    some ⟨c1w, c1m, c3m, c1y⟩

/-! ## main.py: market context and per-symbol orchestration -/

/-- The `market_data` dictionary of `_process_market_data`
(src/main.py, line 14), shared read-only by every symbol in a cycle. -/
structure MarketContext where
  market_return : Option ℚ
  risk_free_rate : Option ℚ
deriving Repr, DecidableEq

/-- Modelled from the spec: `FmpApiClient.get_risk_free_rate` is called at
src/main.py line 23 but the class `FmpApiClient` is not defined anywhere
under src/ (src/api_requests.py holds only module-level functions). Per
spec §4.5, the provider queries a short-maturity reference rate over a
recent trailing window and takes the most recent observation, substituting
the fixed fallback 5.0 when the query fails (`none`) or returns no usable
observation (empty window). -/
def get_risk_free_rate (rate_observations : Option (List ℚ)) : ℚ :=
  match rate_observations with
  | some (most_recent :: _) => most_recent
  | _ => 5

/-- Embeds `_process_market_data` (src/main.py, lines 12-25), starting from
the parsed SPY close list (`none` when the response is falsy, lacks the
`historical` key, or has fewer than 2 entries — the Python guard) and the
rate observations consumed by the modelled `get_risk_free_rate`. -/
def _process_market_data
    (spy_historical : Option (List ℚ)) (rate_observations : Option (List ℚ)) :
    MarketContext :=
  { market_return :=
      match spy_historical with
      | some (h0 :: h1 :: _) => calculate_price_change (some h0) (some h1)
      | _ => none,
    risk_free_rate := some (get_risk_free_rate rate_observations) }

/-- One row of the upstream earnings history consumed in
`fetch_and_process_data` (src/main.py, lines 47-50). -/
structure EarningsEvent where
  date : String
  actualEarningResult : Option ℚ
  estimatedEarning : Option ℚ
deriving Repr, DecidableEq

/-- The company profile record; only `beta` is consumed
(src/main.py, line 66). -/
structure CompanyProfile where
  beta : Option ℚ
deriving Repr, DecidableEq

/-- Everything the four client calls of one symbol's iteration fetch
(src/main.py, lines 38-41): earnings history, historical closes
(most-recent-first), after-market quote, company profile. -/
structure RawSymbolData where
  earnings_history : Option (List EarningsEvent)
  historical_closes : Option (List ℚ)
  aftermarket_quote : Option ℚ
  company_profile : Option CompanyProfile
deriving Repr, DecidableEq

/-- The per-symbol record appended to `processed_data`
(src/main.py, lines 61-68). -/
structure ProcessedEntry where
  symbol : String
  earnings : Option EarningsEntry
  previous_close : Option ℚ
  current_price : Option ℚ
  beta : Option ℚ
  market_return : Option ℚ
  risk_free_rate : Option ℚ
deriving Repr, DecidableEq

/-- The body of one loop iteration of `fetch_and_process_data`
(src/main.py, lines 43-68), given the already-fetched raw data: select the
earnings row matching `earnings_date`, take the second close as previous
close, and assemble the entry together with the shared market data. -/
def process_symbol (market_data : MarketContext) (earnings_date : String)
    (symbol : String) (raw : RawSymbolData) : ProcessedEntry :=
  let earnings_entry :=
    ((raw.earnings_history.getD []).find? (fun e => e.date = earnings_date)).map
      (fun e => EarningsEntry.mk e.actualEarningResult e.estimatedEarning)
  let previous_close :=
    match raw.historical_closes with
    | some (_ :: second :: _) => some second
    | _ => none
  { symbol := symbol,
    earnings := earnings_entry,
    previous_close := previous_close,
    current_price := raw.aftermarket_quote,
    beta := raw.company_profile.bind (fun p => p.beta),
    market_return := market_data.market_return,
    risk_free_rate := market_data.risk_free_rate }

/-- Embeds `fetch_and_process_data` (src/main.py, lines 28-74). `fetch`
abstracts the four client calls of one symbol's try-block; `none` means an
exception was raised while fetching that symbol (an APIError or anything
else), caught per symbol: the symbol is skipped and the loop continues. -/
def fetch_and_process_data (fetch : String → Option RawSymbolData)
    (symbols : List String) (market_data : MarketContext)
    (earnings_date : String) : List ProcessedEntry :=
  match symbols with
  | [] => []
  | s :: rest =>
    match fetch s with
    | some raw =>
      process_symbol market_data earnings_date s raw ::
        fetch_and_process_data fetch rest market_data earnings_date
    | none => fetch_and_process_data fetch rest market_data earnings_date

/-- A deterministic fetcher used to exercise `fetch_and_process_data` on a
concrete run: the symbol "FAIL" raises, every other symbol fetches a small
present data set. -/
def demo_fetch (s : String) : Option RawSymbolData :=
  if s = "FAIL" then none
  else some ⟨some [⟨"2025-07-15", some 1, some 2⟩], some [10, 9], some 10,
    some ⟨some 1⟩⟩

/-! ## Claims -/

/-- Claim C4: `calculate_earnings_surprise` equals the spec's reference
definition on every input: `none` when either EPS value is absent (including
an absent entry), exactly `0` when the estimate is zero, and otherwise the
unrounded percentage `(actual - estimated) / |estimated| * 100`. -/
theorem C4_earnings_surprise_matches_spec :
    (∀ a est : Option ℚ,
      calculate_earnings_surprise (some ⟨a, est⟩) = spec_earnings_surprise a est) ∧
    calculate_earnings_surprise none = none := by
  refine ⟨fun a est => ?_, rfl⟩
  cases a <;> cases est <;> rfl

/-- Claim C5: `calculate_abnormal_return` returns the exact CAPM difference
`actual - (rf + beta * (market - rf))` when all four inputs are present,
returns `none` exactly when some input is absent, and its output is
unbounded (no clamping). -/
theorem C5_abnormal_return_exact :
    (∀ ar mr b rf : ℚ,
      calculate_abnormal_return (some ar) (some mr) (some b) (some rf) =
        some (ar - (rf + b * (mr - rf)))) ∧
    (∀ ar mr b rf : Option ℚ,
      calculate_abnormal_return ar mr b rf = none ↔
        (ar = none ∨ mr = none ∨ b = none ∨ rf = none)) ∧
    (∀ bound : ℚ, ∃ ar : ℚ,
      calculate_abnormal_return (some ar) (some 0) (some 0) (some 0) = some ar ∧
        bound < ar) := by
  refine ⟨fun ar mr b rf => by simp [calculate_abnormal_return], ?_, ?_⟩
  · intro ar mr b rf
    cases ar <;> cases mr <;> cases b <;> cases rf <;>
      simp [calculate_abnormal_return]
  · intro bound
    exact ⟨bound + 1, by simp [calculate_abnormal_return], by linarith⟩

/-- Claim C6: with a present zero surprise, `determine_overreaction` answers
"Yes" exactly when the absolute abnormal return exceeds 1, for any threshold;
in particular 1.5 gives "Yes" and 0.5 gives "No". -/
theorem C6_zero_surprise_fallback :
    (∀ ab t : ℚ, determine_overreaction (some ab) (some 0) t =
      if |ab| > 1 then "Yes" else "No") ∧
    determine_overreaction (some (3/2)) (some 0) 2 = "Yes" ∧
    determine_overreaction (some (1/2)) (some 0) 2 = "No" := by
  have hfall : ∀ ab t : ℚ, determine_overreaction (some ab) (some 0) t =
      if |ab| > 1 then "Yes" else "No" := fun ab t => by
    simp [determine_overreaction]
  refine ⟨hfall, ?_, ?_⟩
  · rw [hfall, if_pos (by rw [abs_of_nonneg] <;> norm_num)]
  · rw [hfall, if_neg (by rw [abs_of_nonneg] <;> norm_num)]

/-- Claim C3: with both inputs present and a nonzero surprise,
`determine_overreaction` answers "Yes" exactly when the move is
disproportionate and direction-consistent (zero product counts as
same-direction); the answer is always "Yes" or "No", and an opposite-sign
pair always gets "No" whatever its magnitude. -/
theorem C3_overreaction_main_rule (ab eps t : ℚ) (h : eps ≠ 0) :
    (determine_overreaction (some ab) (some eps) t = "Yes" ↔
      (|ab| > |eps| * t ∧ ab * eps ≥ 0)) ∧
    (determine_overreaction (some ab) (some eps) t = "Yes" ∨
      determine_overreaction (some ab) (some eps) t = "No") ∧
    (ab * eps < 0 → determine_overreaction (some ab) (some eps) t = "No") := by
  have habs : ¬ (|eps| = 0) := fun hz => h (abs_eq_zero.mp hz)
  simp only [determine_overreaction]
  rw [if_neg habs]
  refine ⟨?_, ?_, ?_⟩
  · split_ifs with hcond
    · simp [hcond]
    · simp [hcond]
  · split_ifs <;> simp
  · intro hopp
    split_ifs with hcond
    · exact absurd hcond (fun hc => absurd hc.2 (not_le.mpr hopp))
    · rfl

/-- Witness for C3 at the spec's sample point `eps_surprise=5`,
`abnormal_return=12`, `threshold=2`. -/
theorem C3_overreaction_main_rule_witness :
    (determine_overreaction (some 12) (some 5) 2 = "Yes" ↔
      (|(12:ℚ)| > |(5:ℚ)| * 2 ∧ (12:ℚ) * 5 ≥ 0)) ∧
    (determine_overreaction (some 12) (some 5) 2 = "Yes" ∨
      determine_overreaction (some 12) (some 5) 2 = "No") ∧
    ((12:ℚ) * 5 < 0 → determine_overreaction (some 12) (some 5) 2 = "No") :=
  C3_overreaction_main_rule 12 5 2 (by norm_num)

/-- Claim C8: `calculate_price_change` is `none` exactly when an input is
absent or the previous price is zero, and otherwise returns the exact
percentage change; being a total function, it never raises. -/
theorem C8_price_change_total (current_price previous_price : Option ℚ) :
    (calculate_price_change current_price previous_price = none ↔
      (current_price = none ∨ previous_price = none ∨ previous_price = some 0)) ∧
    (∀ c p : ℚ, p ≠ 0 →
      calculate_price_change (some c) (some p) = some ((c - p) / p * 100)) := by
  constructor
  · cases current_price <;> cases previous_price <;>
      simp [calculate_price_change]
  · intro c p hp
    simp [calculate_price_change, hp]

/-- Witness for C8 at `current=105`, `previous=100`. -/
theorem C8_price_change_total_witness :
    calculate_price_change (some 105) (some 100) = some 5 :=
  ((C8_price_change_total (some 105) (some 100)).2 105 100 (by norm_num)).trans
    (by norm_num)

/-- Claim C9: the price-change calculator is scale-invariant: scaling both
present prices by any positive rational leaves the result unchanged. -/
theorem C9_price_change_scale_invariant (a b k : ℚ) (hk : 0 < k) :
    calculate_price_change (some (k * a)) (some (k * b)) =
      calculate_price_change (some a) (some b) := by
  simp only [calculate_price_change]
  by_cases hb : b = 0
  · subst hb
    simp
  · have hkb : k * b ≠ 0 := mul_ne_zero (ne_of_gt hk) hb
    rw [if_neg hkb, if_neg hb]
    congr 1
    field_simp
    ring

/-- Witness for C9 at `a=105`, `b=100`, `k=2`. -/
theorem C9_price_change_scale_invariant_witness :
    calculate_price_change (some (2 * 105)) (some (2 * 100)) =
      calculate_price_change (some 105) (some 100) :=
  C9_price_change_scale_invariant 105 100 2 (by norm_num)

/-- Dividing by a positive constant and multiplying by 100 preserves strict
positivity of a rational. -/
theorem pos_div_abs_mul_iff (x c : ℚ) (hc : 0 < c) :
    0 < x / c * 100 ↔ 0 < x := by
  rw [div_mul_eq_mul_div, lt_div_iff₀ hc, zero_mul]
  constructor <;> intro h <;> nlinarith

/-- Claim C10: for present inputs with a nonzero estimate (negative ones
included), the EPS surprise is strictly positive exactly when actual exceeds
estimated and strictly negative exactly when it falls short: dividing by the
absolute estimate preserves the sign of the raw surprise. -/
theorem C10_surprise_sign_preserved (a est : ℚ) (h : est ≠ 0) :
    ∃ s : ℚ,
      calculate_earnings_surprise (some ⟨some a, some est⟩) = some s ∧
      (0 < s ↔ est < a) ∧ (s < 0 ↔ a < est) := by
  have habs : 0 < |est| := abs_pos.mpr h
  refine ⟨(a - est) / |est| * 100, ?_, ?_, ?_⟩
  · simp [calculate_earnings_surprise, h]
  · rw [pos_div_abs_mul_iff _ _ habs, sub_pos]
  · have hneg : -((a - est) / |est| * 100) = (est - a) / |est| * 100 := by ring
    rw [← neg_pos, hneg, pos_div_abs_mul_iff _ _ habs, sub_pos]

/-- Witness for C10 at the spec's end-to-end sample `actual=1.10`,
`estimated=1.00` (also checking a negative-estimate point). -/
theorem C10_surprise_sign_preserved_witness :
    (∃ s : ℚ,
      calculate_earnings_surprise (some ⟨some (11/10), some 1⟩) = some s ∧
      (0 < s ↔ (1:ℚ) < 11/10) ∧ (s < 0 ↔ (11/10:ℚ) < 1)) ∧
    (∃ s : ℚ,
      calculate_earnings_surprise (some ⟨some 1, some (-2)⟩) = some s ∧
      (0 < s ↔ (-2:ℚ) < 1) ∧ (s < 0 ↔ (1:ℚ) < -2)) :=
  ⟨C10_surprise_sign_preserved (11/10) 1 (by norm_num),
    C10_surprise_sign_preserved 1 (-2) (by norm_num)⟩

/-- Claim C2 (code bug evaluation): on a most-recent-first series of exactly
5 closes — long enough, per the claim, for the 1-week window — the 1-week
guard `len >= 5` passes but the read is `historical[5]`, one past the end;
the raised IndexError is caught and the whole call yields `None` instead of
a computed 1-week change. The same off-by-one affects lengths 22, 66, 252.
With 6 closes, one more than the claim requires, the window is computed. -/
theorem C2_week_window_off_by_one :
    get_price_changes [100, 101, 102, 103, 104] = none ∧
    get_price_changes [100, 101, 102, 103, 104, 105] =
      some ⟨some ((100 - 105) / 105 * 100), none, none, none⟩ := by
  constructor <;> rfl

/-- Claim C1: when the risk-free-rate query fails or yields no usable
observation, the market context carries the fallback `5` instead of an
absent rate, so the CAPM abnormal return stays computable for every symbol
of the cycle (and the refresh's risk-free-rate abort check cannot fire). -/
theorem C1_risk_free_rate_fallback
    (spy_historical rate_observations : Option (List ℚ))
    (h : rate_observations = none ∨ rate_observations = some []) :
    (_process_market_data spy_historical rate_observations).risk_free_rate =
      some 5 ∧
    ∀ ar mr b : ℚ,
      (calculate_abnormal_return (some ar) (some mr) (some b)
        (_process_market_data spy_historical rate_observations).risk_free_rate
        ).isSome = true := by
  have hrate : (_process_market_data spy_historical rate_observations
      ).risk_free_rate = some 5 := by
    rcases h with h | h <;> rw [h] <;> rfl
  exact ⟨hrate, fun ar mr b => by rw [hrate]; rfl⟩

/-- Witness for C1: the query-failure case, on a two-close SPY history. -/
theorem C1_risk_free_rate_fallback_witness :
    (_process_market_data (some [100, 99]) none).risk_free_rate = some 5 ∧
    ∀ ar mr b : ℚ,
      (calculate_abnormal_return (some ar) (some mr) (some b)
        (_process_market_data (some [100, 99]) none).risk_free_rate
        ).isSome = true :=
  C1_risk_free_rate_fallback (some [100, 99]) none (Or.inl rfl)

/-- Claim C7: a symbol whose fetch raises is skipped, and the final result
list is exactly what the run would produce had every occurrence of that
symbol been omitted from the input list — no other symbol is affected. -/
theorem C7_failed_symbol_skipped (fetch : String → Option RawSymbolData)
    (bad : String) (market_data : MarketContext) (earnings_date : String)
    (h : fetch bad = none) (symbols : List String) :
    fetch_and_process_data fetch symbols market_data earnings_date =
      fetch_and_process_data fetch
        (symbols.filter (fun s => decide (s ≠ bad))) market_data
        earnings_date := by
  induction symbols with
  | nil => rfl
  | cons s rest ih =>
    by_cases hs : s = bad
    · subst hs
      have hfil : List.filter (fun x => decide (x ≠ s)) (s :: rest) =
          List.filter (fun x => decide (x ≠ s)) rest := by
        simp [List.filter]
      rw [hfil]
      simpa [fetch_and_process_data, h] using ih
    · have hfil : List.filter (fun x => decide (x ≠ bad)) (s :: rest) =
          s :: List.filter (fun x => decide (x ≠ bad)) rest := by
        simp [List.filter, hs]
      rw [hfil]
      cases hfs : fetch s with
      | none => simp [fetch_and_process_data, hfs, ih]
      | some raw => simp [fetch_and_process_data, hfs, ih]

/-- Witness for C7 on the symbol list `[AAPL, FAIL, MSFT]` with the failing
symbol "FAIL". -/
theorem C7_failed_symbol_skipped_witness :
    fetch_and_process_data demo_fetch ["AAPL", "FAIL", "MSFT"]
        ⟨some 1, some 5⟩ "2025-07-15" =
      fetch_and_process_data demo_fetch
        (["AAPL", "FAIL", "MSFT"].filter (fun s => decide (s ≠ "FAIL")))
        ⟨some 1, some 5⟩ "2025-07-15" :=
  C7_failed_symbol_skipped demo_fetch "FAIL" ⟨some 1, some 5⟩ "2025-07-15"
    rfl ["AAPL", "FAIL", "MSFT"]
